import Mathlib

/-!
Shallow embedding of `src/src/state.rs` from palpo-matrix-server/ruma:
the state-event envelope codec (the manual `Serialize` impl for
`StateEvent<C>` and the `StateEventVisitor::visit_map` deserializer in
`mod raw_state_event`), together with the theorems that settle the
frozen claims about it.

Modelling conventions:
* A JSON value is `Json`; the wire object handed to `visit_map` is the
  sequence of its top-level entries, `WireObj := List (String × Json)`
  (serde's `MapAccess` presents entries in order; duplicates possible).
* Machine integers: `js_int::UInt` is a non-negative integer bounded by
  `2^53 - 1` (`MAX_SAFE_UINT`); we model wire numbers as `Int` and check
  the bound explicitly.  `SystemTime` is an `Int` of milliseconds
  relative to `UNIX_EPOCH` (negative = before the epoch).
* Fallible code returns `Except`; the `.unwrap()` in the `Serialize`
  impl, which panics, is modelled by the dedicated `EncodeOutcome.panicked`
  result of `encode`.
* External collaborators (`ruma_identifiers` validation, the
  macro-generated content enum, `UnsignedData`) are not under `src/`;
  identifiers are opaque validated strings per the spec, and the
  content-capability interface / `UnsignedData` are modelled from the
  spec where noted.
-/

namespace RumaState

/-- A JSON value, as far as the envelope codec observes it. -/
inductive Json where
  | null
  | bool (b : Bool)
  | num (n : Int)
  | str (s : String)
  | arr (elems : List Json)
  | obj (entries : List (String × Json))

/-- The top-level entries of the wire JSON object, in the order the
deserializer's `MapAccess` presents them. -/
abbrev WireObj := List (String × Json)

/-- Modelled from the spec: `UnsignedData` (its source is not under
`src/`) is "an open key-value side-channel not covered by the
cryptographic signature; may be empty", with an empty default and an
`is_empty` test.  We model it as the entry list of its JSON object. -/
abbrev UnsignedData := List (String × Json)

/-- The `js_int::UInt` maximum, the safe-integer bound `2^53 - 1` of the
wire format (`MAX_SAFE_UINT`). -/
def wireMax : Int := 2 ^ 53 - 1

/-- The `Field` identifier enum of `raw_state_event`
(`#[serde(field_identifier, rename_all = "snake_case")]`). -/
inductive Field where
  | type
  | content
  | event_id
  | sender
  | origin_server_ts
  | room_id
  | state_key
  | prev_content
  | unsigned
deriving DecidableEq

/-- The snake_case wire name of each `Field` variant. -/
def Field.name : Field → String
  | .type => "type"
  | .content => "content"
  | .event_id => "event_id"
  | .sender => "sender"
  | .origin_server_ts => "origin_server_ts"
  | .room_id => "room_id"
  | .state_key => "state_key"
  | .prev_content => "prev_content"
  | .unsigned => "unsigned"

/-- Deserialization of the `Field` identifier: serde matches the exact
snake_case variant names; the enum has no `#[serde(other)]` variant, so
any other key yields `none` (an `unknown_field` error at `next_key`). -/
def classifyKey (k : String) : Option Field :=
  if k = "type" then some .type
  else if k = "content" then some .content
  else if k = "event_id" then some .event_id
  else if k = "sender" then some .sender
  else if k = "origin_server_ts" then some .origin_server_ts
  else if k = "room_id" then some .room_id
  else if k = "state_key" then some .state_key
  else if k = "prev_content" then some .prev_content
  else if k = "unsigned" then some .unsigned
  else none

/-- Decode-side failures, following the error taxonomy: serde's
`unknown_field`, `duplicate_field`, `missing_field`, value-shape errors
from eager `next_value` parses, the `js_int` out-of-range failure on
`origin_server_ts` (the spec's `TimestampOverflow`), and a
`ContentError` propagated from `C::from_parts` via `Error::custom`. -/
inductive DecodeError where
  | unknownField (k : String)
  | duplicateField (k : String)
  | missingField (k : String)
  | invalidValue (k : String)
  | timestampOverflow
  | content (msg : String)
deriving DecidableEq

/-- The typed value a recognized field's eager `next_value` parse
produces: a `String` (identifiers, `type`, `state_key`), the `UInt`
timestamp, a buffered raw payload (`Box<RawJsonValue>`), or the
`UnsignedData` map. -/
inductive PV where
  | pvStr (s : String)
  | pvInt (n : Int)
  | pvRaw (j : Json)
  | pvUns (u : UnsignedData)

/-- The nine per-field option slots of `StateEventVisitor::visit_map`
(one local `Option` variable per recognized field, declaration order as
in the source). -/
structure Slots where
  content : Option Json
  event_type : Option String
  event_id : Option String
  sender : Option String
  origin_server_ts : Option Int
  room_id : Option String
  state_key : Option String
  prev_content : Option Json
  unsigned : Option UnsignedData

/-- All slots start out empty. -/
def initSlots : Slots :=
  ⟨none, none, none, none, none, none, none, none, none⟩

/-- Uniform read access to the slot of a recognized field. -/
def Slots.get (st : Slots) : Field → Option PV
  | .type => st.event_type.map .pvStr
  | .content => st.content.map .pvRaw
  | .event_id => st.event_id.map .pvStr
  | .sender => st.sender.map .pvStr
  | .origin_server_ts => st.origin_server_ts.map .pvInt
  | .room_id => st.room_id.map .pvStr
  | .state_key => st.state_key.map .pvStr
  | .prev_content => st.prev_content.map .pvRaw
  | .unsigned => st.unsigned.map .pvUns

/-- Uniform write access to the slot of a recognized field (the
parse of a field only ever produces the variant its slot stores; the
catch-all arm is unreachable). -/
def Slots.set (st : Slots) : Field → PV → Slots
  | .type, .pvStr s => { st with event_type := some s }
  | .content, .pvRaw j => { st with content := some j }
  | .event_id, .pvStr s => { st with event_id := some s }
  | .sender, .pvStr s => { st with sender := some s }
  | .origin_server_ts, .pvInt n => { st with origin_server_ts := some n }
  | .room_id, .pvStr s => { st with room_id := some s }
  | .state_key, .pvStr s => { st with state_key := some s }
  | .prev_content, .pvRaw j => { st with prev_content := some j }
  | .unsigned, .pvUns u => { st with unsigned := some u }
  | _, _ => st

/-- A value that must be a JSON string (identifier and string fields;
identifier validation itself is external per the spec, so an identifier
is an opaque validated string). -/
def reqStr (k : String) : Json → Except DecodeError String
  | .str s => .ok s
  | _ => .error (.invalidValue k)

/-- The eager `map.next_value()?` parse for each recognized field:
`content`/`prev_content` are buffered raw (never parsed here), `type`,
the identifiers and `state_key` are strings, `origin_server_ts` is a
`js_int::UInt` (failing outside `[0, wireMax]`), `unsigned` is the
side-channel object. -/
def parseField : Field → Json → Except DecodeError PV
  | .type, v => (reqStr "type" v).map .pvStr
  | .content, v => .ok (.pvRaw v)
  | .event_id, v => (reqStr "event_id" v).map .pvStr
  | .sender, v => (reqStr "sender" v).map .pvStr
  | .origin_server_ts, v =>
    match v with
    | .num n => if 0 ≤ n ∧ n ≤ wireMax then .ok (.pvInt n) else .error .timestampOverflow
    | _ => .error (.invalidValue "origin_server_ts")
  | .room_id, v => (reqStr "room_id" v).map .pvStr
  | .state_key, v => (reqStr "state_key" v).map .pvStr
  | .prev_content, v => .ok (.pvRaw v)
  | .unsigned, v =>
    match v with
    | .obj m => .ok (.pvUns m)
    | _ => .error (.invalidValue "unsigned")

/-- One match arm of the visitor's loop body: fail with
`duplicate_field` if the slot is already occupied, otherwise parse the
value eagerly and store it. -/
def applyField (st : Slots) (tag : Field) (v : Json) : Except DecodeError Slots :=
  if (st.get tag).isSome then .error (.duplicateField tag.name)
  else (parseField tag v).map fun pv => st.set tag pv

/-- One iteration of `while let Some(key) = map.next_key()?`: classify
the key (serde rejects unrecognized keys at `next_key`, there being no
`#[serde(other)]` variant), then run the matching arm. -/
def processEntry (st : Slots) (kv : String × Json) : Except DecodeError Slots :=
  match classifyKey kv.1 with
  | none => .error (.unknownField kv.1)
  | some tag => applyField st tag kv.2

/-- The visitor's whole walk over the map's entries. -/
def walk : Slots → WireObj → Except DecodeError Slots
  | st, [] => .ok st
  | st, kv :: rest =>
    match processEntry st kv with
    | .error e => .error e
    | .ok st' => walk st' rest

/-- The typed envelope `StateEvent<C>`; identifiers are opaque validated
strings, `origin_server_ts` is the `SystemTime` instant as signed
milliseconds relative to the Unix epoch. -/
structure StateEvent (C : Type) where
  content : C
  event_id : String
  sender : String
  origin_server_ts : Int
  room_id : String
  state_key : String
  prev_content : Option C
  unsigned : UnsignedData

/-- Modelled from the spec: the Content Capability Interface a content
type `C` must expose (`event_type`, serde serialization, and
`from_parts(discriminator, raw_payload)`), consumed but not implemented
by the envelope codec. -/
structure ContentCap (C : Type) where
  event_type : C → String
  serialize : C → Json
  from_parts : String → Json → Except String C

/-- The resolution pass after the walk, in the exact order of the
source: `type`, `content` (resolved through `from_parts` with the
`type` value), `event_id`, `sender`, `origin_server_ts` (epoch plus
milliseconds), `room_id`, `state_key`, then `prev_content` resolved
through `from_parts` with the same `type` value, and `unsigned`
defaulted to its empty form. -/
def resolve (cap : ContentCap C) (st : Slots) : Except DecodeError (StateEvent C) :=
  match st.event_type with
  | none => .error (.missingField "type")
  | some event_type =>
  match st.content with
  | none => .error (.missingField "content")
  | some raw =>
  match cap.from_parts event_type raw with
  | .error msg => .error (.content msg)
  | .ok c =>
  match st.event_id with
  | none => .error (.missingField "event_id")
  | some event_id =>
  match st.sender with
  | none => .error (.missingField "sender")
  | some sender =>
  match st.origin_server_ts with
  | none => .error (.missingField "origin_server_ts")
  | some ts =>
  match st.room_id with
  | none => .error (.missingField "room_id")
  | some room_id =>
  match st.state_key with
  | none => .error (.missingField "state_key")
  | some state_key =>
  match st.prev_content with
  | some rawPrev =>
    match cap.from_parts event_type rawPrev with
    | .error msg => .error (.content msg)
    | .ok prev =>
      .ok ⟨c, event_id, sender, ts, room_id, state_key, some prev, st.unsigned.getD []⟩
  | none =>
    .ok ⟨c, event_id, sender, ts, room_id, state_key, none, st.unsigned.getD []⟩

/-- Deserialization of `raw_state_event::StateEvent<C>` composed with the
content resolution: walk the entries, then resolve. -/
def decode (cap : ContentCap C) (o : WireObj) : Except DecodeError (StateEvent C) :=
  match walk initSlots o with
  | .error e => .error e
  | .ok st => resolve cap st

/-- Encode-side failure: `UInt::try_from` on the elapsed milliseconds
failing (surfaced through `S::Error::custom`). -/
inductive EncodeError where
  | timestampOverflow
deriving DecidableEq

/-- What serializing an envelope can do: return the wire object, return
an error, or panic (the `.unwrap()` on
`origin_server_ts.duration_since(UNIX_EPOCH)` for pre-epoch instants). -/
inductive EncodeOutcome where
  | panicked
  | error (e : EncodeError)
  | ok (obj : WireObj)

/-- The wire object the `Serialize` impl emits, fields in its fixed
call order: `type`, `content`, `event_id`, `sender`,
`origin_server_ts`, `room_id`, `state_key`, then `prev_content` only if
present, then `unsigned` only if non-empty. -/
def wireOf (cap : ContentCap C) (e : StateEvent C) : WireObj :=
  [("type", .str (cap.event_type e.content)),
   ("content", cap.serialize e.content),
   ("event_id", .str e.event_id),
   ("sender", .str e.sender),
   ("origin_server_ts", .num e.origin_server_ts),
   ("room_id", .str e.room_id),
   ("state_key", .str e.state_key)]
  ++ (match e.prev_content with
      | some c => [("prev_content", cap.serialize c)]
      | none => [])
  ++ (if e.unsigned.isEmpty then [] else [("unsigned", Json.obj e.unsigned)])

/-- The `Serialize` impl for `StateEvent<C>`:
`duration_since(UNIX_EPOCH).unwrap()` panics for instants before the
epoch; `UInt::try_from(millis)` fails above `wireMax` and is returned
as a custom serialization error; otherwise the fields are written in
the fixed order of `wireOf`. -/
def encode (cap : ContentCap C) (e : StateEvent C) : EncodeOutcome :=
  if e.origin_server_ts < 0 then .panicked
  else if wireMax < e.origin_server_ts then .error .timestampOverflow
  else .ok (wireOf cap e)

/-- Whether an `Except` computation succeeded. -/
def isOkE : Except ε α → Bool
  | .ok _ => true
  | .error _ => false

/-- How many entries of the wire object carry a given key. -/
def countKey (o : WireObj) (k : String) : Nat :=
  (o.filter fun kv => kv.1 = k).length

/-- How many entries of the wire object classify to a given recognized
field. -/
def countTag (o : WireObj) (t : Field) : Nat :=
  (o.filter fun kv => classifyKey kv.1 = some t).length

/-- The required fields, in the resolution order of the source. -/
def requiredFields : List Field :=
  [.type, .content, .event_id, .sender, .origin_server_ts, .room_id, .state_key]

/-- Modelled from the spec: the macro-generated `AnyStateEventContent`
collection (its `event_content_collection!` expansion is not under
`src/`), the tagged union over the registered discriminators
`"m.room.aliases"` and `"m.room.avatar"`. -/
inductive AnyStateEventContent where
  | roomAliases (aliases : List String)
  | roomAvatar (url : String)
deriving DecidableEq

/-- Modelled from the spec: the registered discriminator of each
variant. -/
def anyEventType : AnyStateEventContent → String
  | .roomAliases _ => "m.room.aliases"
  | .roomAvatar _ => "m.room.avatar"

/-- Modelled from the spec: each variant's content serialization
(`aliases` as an array of alias strings, `avatar` by its `url`). -/
def anySerialize : AnyStateEventContent → Json
  | .roomAliases xs => .obj [("aliases", .arr (xs.map .str))]
  | .roomAvatar url => .obj [("url", .str url)]

/-- A JSON array all of whose elements are strings. -/
def strsOfJson : List Json → Option (List String)
  | [] => some []
  | .str s :: rest => (strsOfJson rest).map (s :: ·)
  | _ => none

/-- Modelled from the spec: `from_parts(discriminator, raw_payload)`
for the collection — an unregistered discriminator or a payload not
matching the schema of the registered one is a descriptive
`ContentError`. -/
def anyFromParts (t : String) (j : Json) : Except String AnyStateEventContent :=
  if t = "m.room.aliases" then
    match j with
    | .obj [("aliases", .arr xs)] =>
      match strsOfJson xs with
      | some ss => .ok (.roomAliases ss)
      | none => .error "invalid aliases payload"
    | _ => .error "invalid aliases payload"
  else if t = "m.room.avatar" then
    match j with
    | .obj [("url", .str u)] => .ok (.roomAvatar u)
    | _ => .error "invalid avatar payload"
  else .error ("unknown event type " ++ t)

/-- The capability record of the modelled collection. -/
def anyContentCap : ContentCap AnyStateEventContent :=
  ⟨anyEventType, anySerialize, anyFromParts⟩

/-- A complete valid wire object for the modelled collection, `type` first. -/
def validObj : WireObj :=
  [("type", .str "m.room.aliases"),
   ("content", .obj [("aliases", .arr [.str "#a:x"])]),
   ("event_id", .str "$1:x"),
   ("sender", .str "@u:x"),
   ("origin_server_ts", .num 1),
   ("room_id", .str "!r:x"),
   ("state_key", .str "")]

/-- The envelope `validObj` decodes to. -/
def decodedEnvelope : StateEvent AnyStateEventContent :=
  ⟨.roomAliases ["#a:x"], "$1:x", "@u:x", 1, "!r:x", "", none, []⟩

/-- The object `validObj` with its first two entries swapped (`type` after
`content`). -/
def validObjSwapped : WireObj :=
  [("content", .obj [("aliases", .arr [.str "#a:x"])]),
   ("type", .str "m.room.aliases"),
   ("event_id", .str "$1:x"),
   ("sender", .str "@u:x"),
   ("origin_server_ts", .num 1),
   ("room_id", .str "!r:x"),
   ("state_key", .str "")]

/-- An object in which both `event_id` and `type` are duplicated. -/
def doubleDupObj : WireObj :=
  [("event_id", .str "$1:x"), ("event_id", .str "$1:x"),
   ("type", .str "m.room.aliases"), ("type", .str "m.room.aliases")]

/-- A wire object whose `type` key appears twice ahead of valid fields. -/
def dupTypeObj : WireObj :=
  [("type", .str "m.room.aliases"), ("type", .str "m.room.aliases"),
   ("event_id", .str "$1:x")]

/-- An envelope whose instant lies one millisecond before the epoch. -/
def preEpochEnvelope : StateEvent AnyStateEventContent :=
  ⟨.roomAliases ["#a:x"], "$1:x", "@u:x", -1, "!r:x", "", none, []⟩

/-- The object `validObj` with an `origin_server_ts` of `0`. -/
def ts0Obj : WireObj :=
  [("type", .str "m.room.aliases"),
   ("content", .obj [("aliases", .arr [.str "#a:x"])]),
   ("event_id", .str "$1:x"),
   ("sender", .str "@u:x"),
   ("origin_server_ts", .num 0),
   ("room_id", .str "!r:x"),
   ("state_key", .str "")]

/-- The envelope `ts0Obj` decodes to: its instant is the epoch. -/
def epochEnvelope : StateEvent AnyStateEventContent :=
  ⟨.roomAliases ["#a:x"], "$1:x", "@u:x", 0, "!r:x", "", none, []⟩

/-- The object `validObj` with an `origin_server_ts` of `2^53`, one past
the representable maximum. -/
def bigTsObj : WireObj :=
  [("type", .str "m.room.aliases"),
   ("content", .obj [("aliases", .arr [.str "#a:x"])]),
   ("event_id", .str "$1:x"),
   ("sender", .str "@u:x"),
   ("origin_server_ts", .num (2 ^ 53)),
   ("room_id", .str "!r:x"),
   ("state_key", .str "")]

/-- The object `validObj` extended with a `prev_content` payload. -/
def prevObj : WireObj :=
  validObj ++ [("prev_content", .obj [("aliases", .arr [.str "#b:x"])])]

/-- The envelope `prevObj` decodes to. -/
def prevEnvelope : StateEvent AnyStateEventContent :=
  ⟨.roomAliases ["#a:x"], "$1:x", "@u:x", 1, "!r:x", "",
   some (.roomAliases ["#b:x"]), []⟩

/-- The object `validObj` with its `sender` entry removed. -/
def missingSenderObj : WireObj :=
  [("type", .str "m.room.aliases"),
   ("content", .obj [("aliases", .arr [.str "#a:x"])]),
   ("event_id", .str "$1:x"),
   ("origin_server_ts", .num 1),
   ("room_id", .str "!r:x"),
   ("state_key", .str "")]

/-- A wire object with an unregistered discriminator that omits four
required fields yet has no duplicate and no unknown keys. -/
def unknownTypeObj : WireObj :=
  [("type", .str "x.unregistered"), ("content", .obj []), ("state_key", .str "")]

/-- A valid-valued wire object holding only `type`, `content` and
`state_key`. -/
def sparseObj : WireObj :=
  [("type", .str "m.room.aliases"),
   ("content", .obj [("aliases", .arr [.str "#a:x"])]),
   ("state_key", .str "")]

/-- An envelope with every optional part populated and valid values. -/
def fullEnvelope : StateEvent AnyStateEventContent :=
  ⟨.roomAliases ["#a:x"], "$1:x", "@u:x", 1, "!r:x", "",
   some (.roomAliases ["#b:x"]), [("age", .num 5)]⟩

lemma get_set_of_parse (st : Slots) {t : Field} {v : Json} {pv : PV}
    (h : parseField t v = .ok pv) : (st.set t pv).get t = some pv := by
  cases t <;>
    simp only [parseField] at h <;>
    first
      | (rcases hv : reqStr _ v with _ | s <;> rw [hv] at h <;>
          simp only [Except.map] at h <;> cases h <;> rfl)
      | (cases h; rfl)
      | (cases v <;> simp only at h <;>
          first
            | (split at h <;> cases h <;> rfl)
            | (cases h <;> rfl))

lemma get_set_ne (st : Slots) {t t' : Field} (h : t ≠ t') (pv : PV) :
    (st.set t pv).get t' = st.get t' := by
  cases t <;> cases t' <;> first
    | exact absurd rfl h
    | (cases pv <;> rfl)

lemma set_set_comm (st : Slots) {t t' : Field} (h : t ≠ t') (pv pv' : PV) :
    (st.set t pv).set t' pv' = (st.set t' pv').set t pv := by
  cases t <;> cases t' <;> first
    | exact absurd rfl h
    | (cases pv <;> cases pv' <;> rfl)

/-- Success characterization of one loop arm. -/
lemma applyField_ok_iff {st : Slots} {t : Field} {v : Json} {s : Slots} :
    applyField st t v = .ok s ↔
      st.get t = none ∧ ∃ pv, parseField t v = .ok pv ∧ s = st.set t pv := by
  unfold applyField
  constructor
  · intro h
    split at h
    · cases h
    · next hns =>
      rcases hp : parseField t v with e | pv <;> rw [hp] at h <;>
        simp only [Except.map] at h
      · cases h
      · cases h
        exact ⟨Option.not_isSome_iff_eq_none.mp (by simpa using hns), pv, rfl, rfl⟩
  · rintro ⟨hn, pv, hp, rfl⟩
    rw [if_neg (by simp [hn]), hp]
    rfl

/-- Success characterization of one loop iteration. -/
lemma processEntry_ok_iff {st : Slots} {kv : String × Json} {s : Slots} :
    processEntry st kv = .ok s ↔
      ∃ tag pv, classifyKey kv.1 = some tag ∧ st.get tag = none ∧
        parseField tag kv.2 = .ok pv ∧ s = st.set tag pv := by
  unfold processEntry
  rcases hc : classifyKey kv.1 with _ | tag
  · simp
  · simp only [applyField_ok_iff]
    constructor
    · rintro ⟨hn, pv, hp, rfl⟩
      exact ⟨tag, pv, rfl, hn, hp, rfl⟩
    · rintro ⟨tag', pv, htag, hn, hp, rfl⟩
      cases htag
      exact ⟨hn, pv, hp, rfl⟩

/-- Two successful consecutive iterations commute. -/
lemma processEntry_comm {st s1 s2 : Slots} {a b : String × Json}
    (h1 : processEntry st a = .ok s1) (h2 : processEntry s1 b = .ok s2) :
    ∃ t1, processEntry st b = .ok t1 ∧ processEntry t1 a = .ok s2 := by
  rcases processEntry_ok_iff.mp h1 with ⟨ta, pa, hca, hna, hpa, rfl⟩
  rcases processEntry_ok_iff.mp h2 with ⟨tb, pb, hcb, hnb, hpb, rfl⟩
  have hne : ta ≠ tb := by
    rintro rfl
    rw [get_set_of_parse st hpa] at hnb
    cases hnb
  refine ⟨st.set tb pb, ?_, ?_⟩
  · exact processEntry_ok_iff.mpr ⟨tb, pb, hcb, by rw [← get_set_ne st hne pa]; exact hnb, hpb, rfl⟩
  · refine processEntry_ok_iff.mpr ⟨ta, pa, hca, ?_, hpa, set_set_comm st hne pa pb⟩
    rw [get_set_ne st (Ne.symm hne) pb]
    exact hna

/-- A successful walk is invariant under permutation of the entries. -/
lemma walk_perm {o o' : WireObj} (hp : o.Perm o') :
    ∀ {st s : Slots}, walk st o = .ok s → walk st o' = .ok s := by
  induction hp with
  | nil => intro st s h; exact h
  | cons x _ ih =>
    intro st s h
    simp only [walk] at h ⊢
    rcases he : processEntry st x with e | st1 <;> rw [he] at h
    · cases h
    · exact ih h
  | swap x y l =>
    intro st s h
    simp only [walk] at h ⊢
    rcases he : processEntry st y with e | st1 <;> rw [he] at h
    · cases h
    · simp only [walk] at h
      rcases he2 : processEntry st1 x with e | st2 <;> rw [he2] at h
      · cases h
      · rcases processEntry_comm he he2 with ⟨t1, hb1, hb2⟩
        rw [hb1]
        simp only [walk]
        rw [hb2]
        exact h
  | trans _ _ ih1 ih2 =>
    intro st s h
    exact ih2 (ih1 h)

/-- Walking a concatenation walks the pieces in order. -/
lemma walk_append (st : Slots) (l1 l2 : WireObj) :
    walk st (l1 ++ l2) =
      match walk st l1 with
      | .error e => .error e
      | .ok s => walk s l2 := by
  induction l1 generalizing st with
  | nil => simp [walk]
  | cons kv rest ih =>
    simp only [List.cons_append, walk]
    rcases processEntry st kv with e | st' <;> simp [ih]

/-- A walk error aborts the decode with that error. -/
lemma decode_of_walk_error {cap : ContentCap C} {o : WireObj} {e : DecodeError}
    (h : walk initSlots o = .error e) : decode cap o = .error e := by
  unfold decode
  rw [h]

/-- A slot a walk starts with survives to its end. -/
lemma walk_get_mono {st s : Slots} {o : WireObj} (h : walk st o = .ok s)
    {t : Field} {pv : PV} (hg : st.get t = some pv) : s.get t = some pv := by
  induction o generalizing st with
  | nil => cases h; exact hg
  | cons kv rest ih =>
    simp only [walk] at h
    rcases he : processEntry st kv with e | st1 <;> rw [he] at h
    · cases h
    · rcases processEntry_ok_iff.mp he with ⟨tag, pv', hc, hn, hp, rfl⟩
      have hne : tag ≠ t := by rintro rfl; rw [hg] at hn; cases hn
      exact ih h (by rw [get_set_ne st hne pv']; exact hg)

/-- After a successful walk each recognized entry's parse succeeded and
its slot holds the parsed value. -/
lemma walk_mem_slot {st s : Slots} {o : WireObj} (h : walk st o = .ok s)
    {k : String} {v : Json} (hm : (k, v) ∈ o) {tag : Field}
    (hc : classifyKey k = some tag) :
    ∃ pv, parseField tag v = .ok pv ∧ s.get tag = some pv := by
  induction o generalizing st with
  | nil => cases hm
  | cons kv rest ih =>
    simp only [walk] at h
    rcases he : processEntry st kv with e | st1 <;> rw [he] at h
    · cases h
    · rcases List.mem_cons.mp hm with rfl | hm'
      · rcases processEntry_ok_iff.mp he with ⟨tag', pv, hc', hn, hp, rfl⟩
        rw [hc] at hc'
        cases hc'
        exact ⟨pv, hp, walk_get_mono h (get_set_of_parse st hp)⟩
      · exact ih h hm'

/-- Every key of a successfully walked object is recognized. -/
lemma walk_classified {st s : Slots} {o : WireObj} (h : walk st o = .ok s)
    {k : String} {v : Json} (hm : (k, v) ∈ o) : classifyKey k ≠ none := by
  induction o generalizing st with
  | nil => cases hm
  | cons kv rest ih =>
    simp only [walk] at h
    rcases he : processEntry st kv with e | st1 <;> rw [he] at h
    · cases h
    · rcases List.mem_cons.mp hm with rfl | hm'
      · rcases processEntry_ok_iff.mp he with ⟨tag, pv, hc', _, _, rfl⟩
        rw [hc']
        exact fun hx => by cases hx
      · exact ih h hm'

/-- After a successful walk a field filled at the start was never seen
again, and any field was seen at most once. -/
lemma walk_count {st s : Slots} {o : WireObj} (h : walk st o = .ok s) (t : Field) :
    if (st.get t).isSome then countTag o t = 0 else countTag o t ≤ 1 := by
  induction o generalizing st with
  | nil =>
    cases h
    split <;> simp [countTag]
  | cons kv rest ih =>
    simp only [walk] at h
    rcases he : processEntry st kv with e | st1 <;> rw [he] at h
    · cases h
    · rcases processEntry_ok_iff.mp he with ⟨tag, pv, hc, hn, hp, rfl⟩
      have ihr := ih h
      by_cases hts : tag = t
      · subst hts
        rw [if_neg (by simp [hn])]
        rw [if_pos (by simp [get_set_of_parse st hp])] at ihr
        have hone : countTag (kv :: rest) tag = countTag rest tag + 1 := by
          simp [countTag, List.filter_cons, hc]
        have hz : countTag rest tag = 0 := ihr
        omega
      · have hget : ((st.set tag pv).get t) = st.get t := get_set_ne st hts pv
        rw [hget] at ihr
        have hkt : ¬ (classifyKey kv.1 = some t) := by
          rw [hc]; exact fun hx => hts (Option.some.inj hx)
        have hcount : countTag (kv :: rest) t = countTag rest t := by
          simp only [countTag, List.filter_cons, decide_eq_true_eq, if_neg hkt]
        rw [hcount]
        exact ihr

/-- A recognized key is its field's canonical name. -/
lemma classify_eq_name {k : String} {t : Field} (h : classifyKey k = some t) :
    Field.name t = k := by
  unfold classifyKey at h
  split_ifs at h <;> cases h <;> simp_all [Field.name]

/-- Classification recognizes each canonical name. -/
lemma classify_name (t : Field) : classifyKey (Field.name t) = some t := by
  cases t <;> rfl

/-- Counting a recognized key never exceeds counting its field. -/
lemma countKey_le_countTag {k : String} {t : Field} (h : classifyKey k = some t)
    (o : WireObj) : countKey o k ≤ countTag o t := by
  induction o with
  | nil => simp [countKey, countTag]
  | cons kv rest ih =>
    simp only [countKey, countTag, List.filter_cons] at ih ⊢
    by_cases hk : kv.1 = k
    · rw [if_pos (by simp [hk]), if_pos (by simp [hk, h])]
      simpa using ih
    · rw [if_neg (by simp [hk])]
      split
      · exact le_trans ih (by simp)
      · exact ih

lemma resolve_missing_type {cap : ContentCap C} {st : Slots}
    (h : st.event_type = none) : resolve cap st = .error (.missingField "type") := by
  unfold resolve
  rw [h]

lemma resolve_missing_content {cap : ContentCap C} {st : Slots} {t : String}
    (ht : st.event_type = some t) (h : st.content = none) :
    resolve cap st = .error (.missingField "content") := by
  unfold resolve
  rw [ht, h]

lemma resolve_missing_event_id {cap : ContentCap C} {st : Slots} {t : String}
    {raw : Json} {c : C} (ht : st.event_type = some t) (hc : st.content = some raw)
    (hf : cap.from_parts t raw = .ok c) (h : st.event_id = none) :
    resolve cap st = .error (.missingField "event_id") := by
  simp only [resolve, ht, hc, hf, h]

lemma resolve_missing_sender {cap : ContentCap C} {st : Slots} {t : String}
    {raw : Json} {c : C} {eid : String} (ht : st.event_type = some t)
    (hc : st.content = some raw) (hf : cap.from_parts t raw = .ok c)
    (he : st.event_id = some eid) (h : st.sender = none) :
    resolve cap st = .error (.missingField "sender") := by
  simp only [resolve, ht, hc, hf, he, h]

lemma resolve_missing_ts {cap : ContentCap C} {st : Slots} {t : String}
    {raw : Json} {c : C} {eid snd : String} (ht : st.event_type = some t)
    (hc : st.content = some raw) (hf : cap.from_parts t raw = .ok c)
    (he : st.event_id = some eid) (hs : st.sender = some snd)
    (h : st.origin_server_ts = none) :
    resolve cap st = .error (.missingField "origin_server_ts") := by
  simp only [resolve, ht, hc, hf, he, hs, h]

lemma resolve_missing_room_id {cap : ContentCap C} {st : Slots} {t : String}
    {raw : Json} {c : C} {eid snd : String} {ts : Int} (ht : st.event_type = some t)
    (hc : st.content = some raw) (hf : cap.from_parts t raw = .ok c)
    (he : st.event_id = some eid) (hs : st.sender = some snd)
    (hts : st.origin_server_ts = some ts) (h : st.room_id = none) :
    resolve cap st = .error (.missingField "room_id") := by
  simp only [resolve, ht, hc, hf, he, hs, hts, h]

lemma resolve_missing_state_key {cap : ContentCap C} {st : Slots} {t : String}
    {raw : Json} {c : C} {eid snd : String} {ts : Int} {rid : String}
    (ht : st.event_type = some t) (hc : st.content = some raw)
    (hf : cap.from_parts t raw = .ok c) (he : st.event_id = some eid)
    (hs : st.sender = some snd) (hts : st.origin_server_ts = some ts)
    (hr : st.room_id = some rid) (h : st.state_key = none) :
    resolve cap st = .error (.missingField "state_key") := by
  simp only [resolve, ht, hc, hf, he, hs, hts, hr, h]

/-- The slot of a recognized field in the empty initial state. -/
lemma initSlots_get (t : Field) : initSlots.get t = none := by
  cases t <;> rfl

/-- What a successful resolution says about the slots and the envelope. -/
lemma resolve_ok_spec {cap : ContentCap C} {st : Slots} {E : StateEvent C}
    (h : resolve cap st = .ok E) :
    ∃ t raw, st.event_type = some t ∧ st.content = some raw ∧
      cap.from_parts t raw = .ok E.content ∧
      st.event_id = some E.event_id ∧ st.sender = some E.sender ∧
      st.origin_server_ts = some E.origin_server_ts ∧
      st.room_id = some E.room_id ∧ st.state_key = some E.state_key ∧
      (match st.prev_content with
       | some rawP => (cap.from_parts t rawP).toOption = E.prev_content ∧
           E.prev_content.isSome = true
       | none => E.prev_content = none) ∧
      E.unsigned = st.unsigned.getD [] := by
  unfold resolve at h
  rcases hty : st.event_type with _ | t <;> simp only [hty] at h
  · exact absurd h (by simp)
  rcases hco : st.content with _ | raw <;> simp only [hco] at h
  · exact absurd h (by simp)
  rcases hfp : cap.from_parts t raw with msg | c <;> simp only [hfp] at h
  · exact absurd h (by simp)
  rcases hei : st.event_id with _ | eid <;> simp only [hei] at h
  · exact absurd h (by simp)
  rcases hse : st.sender with _ | snd <;> simp only [hse] at h
  · exact absurd h (by simp)
  rcases hts : st.origin_server_ts with _ | ts <;> simp only [hts] at h
  · exact absurd h (by simp)
  rcases hri : st.room_id with _ | rid <;> simp only [hri] at h
  · exact absurd h (by simp)
  rcases hsk : st.state_key with _ | sk <;> simp only [hsk] at h
  · exact absurd h (by simp)
  rcases hpc : st.prev_content with _ | rawP <;> simp only [hpc] at h
  · cases h
    exact ⟨t, raw, rfl, rfl, hfp, rfl, rfl, rfl, rfl, rfl, rfl, rfl⟩
  · rcases hfq : cap.from_parts t rawP with msg | prev <;> simp only [hfq] at h
    · exact absurd h (by simp)
    · cases h
      exact ⟨t, raw, rfl, rfl, hfp, rfl, rfl, rfl, rfl, rfl,
        ⟨by rw [hfq]; rfl, rfl⟩, rfl⟩

/-- Claim C2 (amended): a successful decode is invariant under any
permutation of the wire object's top-level entries (so a failing decode
also fails under any permutation, though possibly with a different
error). -/
theorem decode_perm_of_ok (cap : ContentCap C) (o o' : WireObj) (E : StateEvent C)
    (hperm : o.Perm o') (hd : decode cap o = .ok E) : decode cap o' = .ok E := by
  unfold decode at hd ⊢
  rcases hw : walk initSlots o with e | st <;> rw [hw] at hd
  · cases hd
  · rw [walk_perm hperm hw]
    exact hd

/-- Claim C2, counterexample to the claim as stated: two wire objects
that are permutations of each other (each with two duplicated keys)
decode to different errors, so decode is not invariant under all
permutations. -/
theorem decode_perm_counterexample :
    ([(("type" : String), Json.str "m.room.aliases"), ("type", Json.str "m.room.aliases")]
      ++ [("event_id", Json.str "$1:x"), ("event_id", Json.str "$1:x")]).Perm
    ([(("event_id" : String), Json.str "$1:x"), ("event_id", Json.str "$1:x")]
      ++ [("type", Json.str "m.room.aliases"), ("type", Json.str "m.room.aliases")]) ∧
    decode anyContentCap
      ([("type", Json.str "m.room.aliases"), ("type", Json.str "m.room.aliases")]
        ++ [("event_id", Json.str "$1:x"), ("event_id", Json.str "$1:x")]) =
      .error (.duplicateField "type") ∧
    decode anyContentCap
      ([("event_id", Json.str "$1:x"), ("event_id", Json.str "$1:x")]
        ++ [("type", Json.str "m.room.aliases"), ("type", Json.str "m.room.aliases")]) =
      .error (.duplicateField "event_id") ∧
    DecodeError.duplicateField "type" ≠ DecodeError.duplicateField "event_id" :=
  ⟨List.perm_append_comm, rfl, rfl, by decide⟩

/-- Witness for C2: the example pair from the spec, `type` before vs
after `content`, decode to the same envelope. -/
theorem decode_perm_witness :
    decode anyContentCap validObjSwapped = .ok decodedEnvelope :=
  decode_perm_of_ok anyContentCap validObj validObjSwapped decodedEnvelope
    (List.Perm.swap _ _ _) rfl

/-- Claim C3 (amended): a wire object in which a recognized key appears
twice never decodes successfully (the duplicate is never resolved by
taking either occurrence); and the error is `DuplicateField` naming
that key whenever its second occurrence is the first fault the walk
meets (every earlier entry processed without error and the key already
seen). -/
theorem decode_duplicate_key (cap : ContentCap C) (k : String) (tag : Field)
    (o : WireObj) (hk : classifyKey k = some tag) :
    (2 ≤ countKey o k → isOkE (decode cap o) = false) ∧
    (∀ pre v rest st, o = pre ++ (k, v) :: rest → walk initSlots pre = .ok st →
      (st.get tag).isSome = true → decode cap o = .error (.duplicateField k)) := by
  constructor
  · intro h2
    unfold decode
    rcases hw : walk initSlots o with e | st
    · rfl
    · exfalso
      have hcount := walk_count hw tag
      rw [initSlots_get, Option.isSome_none, if_neg (by simp)] at hcount
      have hle := countKey_le_countTag hk o
      omega
  · rintro pre v rest st rfl hpre hseen
    have hw : walk initSlots (pre ++ (k, v) :: rest) = .error (.duplicateField k) := by
      rw [walk_append, hpre]
      simp only [walk, processEntry, hk, applyField, hseen, if_pos]
      rw [classify_eq_name hk]
    exact decode_of_walk_error hw

/-- Claim C3, counterexample to the claim as stated: `type` appears
twice in `doubleDupObj` (with equal values), yet the decode error names
`event_id`, not `type`. -/
theorem decode_duplicate_counterexample :
    countKey doubleDupObj "type" = 2 ∧
    decode anyContentCap doubleDupObj = .error (.duplicateField "event_id") ∧
    decode anyContentCap doubleDupObj ≠ .error (.duplicateField "type") :=
  ⟨rfl, rfl, fun h => absurd (Except.error.inj h) (by decide)⟩

/-- Witness for C3: a duplicated `type` key makes decode fail with
`DuplicateField "type"`. -/
theorem decode_duplicate_witness :
    isOkE (decode anyContentCap dupTypeObj) = false ∧
    decode anyContentCap dupTypeObj = .error (.duplicateField "type") :=
  ⟨(decode_duplicate_key anyContentCap "type" .type dupTypeObj rfl).1 (by decide),
   (decode_duplicate_key anyContentCap "type" .type dupTypeObj rfl).2
     [("type", .str "m.room.aliases")] (.str "m.room.aliases")
     [("event_id", .str "$1:x")]
     ⟨none, some "m.room.aliases", none, none, none, none, none, none, none⟩
     rfl rfl rfl⟩

/-- Claim C5: the wire object a successful encode produces contains a
`prev_content` key exactly when `prev_content` is present (an absent
`prev_content` is omitted, not encoded as null), and an `unsigned` key
exactly when the `unsigned` map is non-empty. -/
theorem encode_omission (cap : ContentCap C) (E : StateEvent C) (w : WireObj)
    (he : encode cap E = .ok w) :
    ("prev_content" ∈ w.map Prod.fst ↔ E.prev_content.isSome = true) ∧
    ("unsigned" ∈ w.map Prod.fst ↔ E.unsigned.isEmpty = false) := by
  unfold encode at he
  split at he
  · cases he
  split at he
  · cases he
  cases he
  rcases hp : E.prev_content with _ | pc <;>
    rcases hu : E.unsigned.isEmpty <;>
      simp [wireOf, hp, hu]

/-- Claim C6: at an envelope whose `origin_server_ts` lies before the
epoch, the `Serialize` impl panics (the `.unwrap()` on
`duration_since(UNIX_EPOCH)`) instead of returning the
`TimestampOverflow`-kind error result the spec requires. -/
theorem encode_pre_epoch_panics :
    preEpochEnvelope.origin_server_ts < 0 ∧
    encode anyContentCap preEpochEnvelope = .panicked := ⟨by decide, rfl⟩

/-- Claim C7 (amended): a wire object containing an unrecognized
top-level key never decodes successfully — the `Field` identifier
deserialization rejects unknown keys instead of ignoring them. -/
theorem decode_unknown_key_fails (cap : ContentCap C) (o : WireObj) (k : String)
    (v : Json) (hm : (k, v) ∈ o) (hu : classifyKey k = none) :
    isOkE (decode cap o) = false := by
  unfold decode
  rcases hw : walk initSlots o with e | st
  · rfl
  · exact absurd hu (walk_classified hw hm)

/-- Claim C7, counterexample to the claim as stated: appending an
unknown key to a wire object that decodes successfully makes the
decode fail, instead of being ignored. -/
theorem decode_unknown_counterexample :
    decode anyContentCap validObj = .ok decodedEnvelope ∧
    decode anyContentCap (validObj ++ [("fooba", Json.null)]) =
      .error (.unknownField "fooba") ∧
    decode anyContentCap (validObj ++ [("fooba", Json.null)]) ≠
      decode anyContentCap validObj :=
  ⟨rfl, rfl, fun h => by cases h⟩

/-- Witness for C7: the amended statement at the concrete object. -/
theorem decode_unknown_witness :
    isOkE (decode anyContentCap (validObj ++ [("fooba", Json.null)])) = false :=
  decode_unknown_key_fails anyContentCap (validObj ++ [("fooba", Json.null)])
    "fooba" Json.null (by simp [validObj]) rfl

/-- Claim C8: (1) a wire `origin_server_ts` of `0` decodes to exactly
the epoch instant and the decoded envelope re-encodes it back to the
wire value `0`; (2) decoding an `origin_server_ts` wire value above the
representable maximum fails with `TimestampOverflow`; (3) a wire object
carrying such an oversized value never decodes successfully (no
truncation or wrapping). -/
theorem ts_bounds (cap : ContentCap C) (o : WireObj) (E : StateEvent C) (n : Int) :
    (decode cap o = .ok E → ("origin_server_ts", Json.num 0) ∈ o →
      E.origin_server_ts = 0 ∧ encode cap E = .ok (wireOf cap E) ∧
      ("origin_server_ts", Json.num 0) ∈ wireOf cap E) ∧
    (wireMax < n →
      parseField .origin_server_ts (Json.num n) = .error .timestampOverflow) ∧
    (wireMax < n → ("origin_server_ts", Json.num n) ∈ o →
      isOkE (decode cap o) = false) := by
  have hover : ∀ m : Int, wireMax < m →
      parseField .origin_server_ts (Json.num m) = .error .timestampOverflow := by
    intro m hm
    have hcond : ¬ (0 ≤ m ∧ m ≤ wireMax) := fun hx => absurd hm (not_lt.mpr hx.2)
    simp only [parseField, if_neg hcond]
  refine ⟨?_, hover n, ?_⟩
  · intro hd hm
    have hts : E.origin_server_ts = 0 := by
      unfold decode at hd
      rcases hw : walk initSlots o with e | st <;> rw [hw] at hd
      · cases hd
      · rcases walk_mem_slot hw hm rfl with ⟨pv, hp, hg⟩
        have hp0 : pv = .pvInt 0 := by
          simp only [parseField] at hp
          rw [if_pos (by constructor <;> [rfl; norm_num [wireMax]])] at hp
          exact (Except.ok.inj hp).symm
        subst hp0
        rcases resolve_ok_spec hd with ⟨t, raw, _, _, _, _, _, hslot, _⟩
        rw [Slots.get, hslot] at hg
        simp only [Option.map_some', Option.some.injEq, PV.pvInt.injEq] at hg
        omega
    refine ⟨hts, ?_, ?_⟩
    · unfold encode
      rw [if_neg (by rw [hts]; norm_num), if_neg (by rw [hts]; norm_num [wireMax])]
    · rw [wireOf]
      rw [hts]
      simp
  · intro hn hm
    unfold decode
    rcases hw : walk initSlots o with e | st
    · rfl
    · exfalso
      rcases walk_mem_slot hw hm rfl with ⟨pv, hp, _⟩
      rw [hover n hn] at hp
      cases hp

/-- Witness for C8: the timestamp bounds at concrete inputs. -/
theorem ts_bounds_witness :
    (epochEnvelope.origin_server_ts = 0 ∧
     encode anyContentCap epochEnvelope = .ok (wireOf anyContentCap epochEnvelope) ∧
     ("origin_server_ts", Json.num 0) ∈ wireOf anyContentCap epochEnvelope) ∧
    parseField .origin_server_ts (Json.num (2 ^ 53)) = .error .timestampOverflow ∧
    isOkE (decode anyContentCap bigTsObj) = false :=
  ⟨(ts_bounds anyContentCap ts0Obj epochEnvelope 0).1 rfl (by simp [ts0Obj]),
   (ts_bounds anyContentCap bigTsObj epochEnvelope (2 ^ 53)).2.1 (by norm_num [wireMax]),
   (ts_bounds anyContentCap bigTsObj epochEnvelope (2 ^ 53)).2.2 (by norm_num [wireMax])
     (by simp [bigTsObj])⟩

/-- Claim C9: when both `content` and `prev_content` were present on
the wire, a successful decode resolves both payload slots through
`from_parts` with the single discriminator taken from the `type` slot. -/
theorem single_discriminator (cap : ContentCap C) (o : WireObj) (st : Slots)
    (t : String) (rawC rawP : Json) (E : StateEvent C)
    (hw : walk initSlots o = .ok st) (ht : st.event_type = some t)
    (hc : st.content = some rawC) (hp : st.prev_content = some rawP)
    (hd : decode cap o = .ok E) :
    cap.from_parts t rawC = .ok E.content ∧
    (cap.from_parts t rawP).toOption = E.prev_content ∧
    E.prev_content.isSome = true := by
  unfold decode at hd
  rw [hw] at hd
  rcases resolve_ok_spec hd with ⟨t', rawC', ht', hc', hfc, _, _, _, _, _, hprev, _⟩
  rw [ht] at ht'
  cases Option.some.inj ht'
  rw [hc] at hc'
  cases Option.some.inj hc'
  simp only [hp] at hprev
  exact ⟨hfc, hprev.1, hprev.2⟩

/-- Witness for C9: the single-discriminator property at the concrete
object holding both payload slots. -/
theorem single_discriminator_witness :
    anyContentCap.from_parts "m.room.aliases" (.obj [("aliases", .arr [.str "#a:x"])]) =
      .ok (.roomAliases ["#a:x"]) ∧
    (anyContentCap.from_parts "m.room.aliases"
      (.obj [("aliases", .arr [.str "#b:x"])])).toOption = prevEnvelope.prev_content ∧
    prevEnvelope.prev_content.isSome = true :=
  single_discriminator anyContentCap prevObj
    ⟨some (.obj [("aliases", .arr [.str "#a:x"])]), some "m.room.aliases",
     some "$1:x", some "@u:x", some 1, some "!r:x", some "",
     some (.obj [("aliases", .arr [.str "#b:x"])]), none⟩
    "m.room.aliases" (.obj [("aliases", .arr [.str "#a:x"])])
    (.obj [("aliases", .arr [.str "#b:x"])]) prevEnvelope
    rfl rfl rfl rfl rfl

/-- Claim C1: an envelope built from valid field values — instant at or
after the epoch and within the wire integer range, content (and
`prev_content` when present) whose discriminator the capability resolves
back — encodes successfully and decodes back to itself; `unsigned`
defaults to its empty form when the encoder omitted it. -/
theorem decode_encode_roundtrip (cap : ContentCap C) (E : StateEvent C)
    (h0 : 0 ≤ E.origin_server_ts) (h1 : E.origin_server_ts ≤ wireMax)
    (hc : cap.from_parts (cap.event_type E.content) (cap.serialize E.content) =
      .ok E.content)
    (hp : ∀ p, E.prev_content = some p →
      cap.from_parts (cap.event_type E.content) (cap.serialize p) = .ok p) :
    encode cap E = .ok (wireOf cap E) ∧ decode cap (wireOf cap E) = .ok E := by
  obtain ⟨c, eid, snd, ts, rid, sk, pc, un⟩ := E
  simp only at h0 h1 hc hp ⊢
  refine ⟨?_, ?_⟩
  · unfold encode
    rw [if_neg (not_lt.mpr h0), if_neg (not_lt.mpr h1)]
  · rcases hpc : pc with _ | p <;> rcases hu : un.isEmpty
    · simp [decode, wireOf, hpc, hu, walk, processEntry, classifyKey, applyField,
        parseField, reqStr, Slots.get, Slots.set, initSlots, resolve, Except.map,
        h0, h1, hc]
    · have hun : un = [] := List.isEmpty_iff.mp hu
      simp [decode, wireOf, hpc, hu, walk, processEntry, classifyKey, applyField,
        parseField, reqStr, Slots.get, Slots.set, initSlots, resolve, Except.map,
        h0, h1, hc, hun]
    · have hpp := hp p hpc
      simp [decode, wireOf, hpc, hu, walk, processEntry, classifyKey, applyField,
        parseField, reqStr, Slots.get, Slots.set, initSlots, resolve, Except.map,
        h0, h1, hc, hpp]
    · have hun : un = [] := List.isEmpty_iff.mp hu
      have hpp := hp p hpc
      simp [decode, wireOf, hpc, hu, walk, processEntry, classifyKey, applyField,
        parseField, reqStr, Slots.get, Slots.set, initSlots, resolve, Except.map,
        h0, h1, hc, hpp, hun]

lemma get_type_some {st : Slots} (h : (st.get .type).isSome = true) :
    ∃ t, st.event_type = some t := by
  rw [show st.get .type = st.event_type.map .pvStr from rfl, Option.isSome_map'] at h
  exact Option.isSome_iff_exists.mp h

lemma get_content_some {st : Slots} (h : (st.get .content).isSome = true) :
    ∃ raw, st.content = some raw := by
  rw [show st.get .content = st.content.map .pvRaw from rfl, Option.isSome_map'] at h
  exact Option.isSome_iff_exists.mp h

lemma get_event_id_some {st : Slots} (h : (st.get .event_id).isSome = true) :
    ∃ eid, st.event_id = some eid := by
  rw [show st.get .event_id = st.event_id.map .pvStr from rfl, Option.isSome_map'] at h
  exact Option.isSome_iff_exists.mp h

lemma get_sender_some {st : Slots} (h : (st.get .sender).isSome = true) :
    ∃ snd, st.sender = some snd := by
  rw [show st.get .sender = st.sender.map .pvStr from rfl, Option.isSome_map'] at h
  exact Option.isSome_iff_exists.mp h

lemma get_ts_some {st : Slots} (h : (st.get .origin_server_ts).isSome = true) :
    ∃ ts, st.origin_server_ts = some ts := by
  rw [show st.get .origin_server_ts = st.origin_server_ts.map .pvInt from rfl,
    Option.isSome_map'] at h
  exact Option.isSome_iff_exists.mp h

lemma get_room_id_some {st : Slots} (h : (st.get .room_id).isSome = true) :
    ∃ rid, st.room_id = some rid := by
  rw [show st.get .room_id = st.room_id.map .pvStr from rfl, Option.isSome_map'] at h
  exact Option.isSome_iff_exists.mp h

lemma get_state_key_some {st : Slots} (h : (st.get .state_key).isSome = true) :
    ∃ sk, st.state_key = some sk := by
  rw [show st.get .state_key = st.state_key.map .pvStr from rfl, Option.isSome_map'] at h
  exact Option.isSome_iff_exists.mp h

/-- Claim C4: a wire object that walks cleanly, holds every required
field but one (with the content payload resolvable whenever it is
present together with `type`), fails decode with `MissingField` naming
exactly the absent required field. -/
theorem decode_missing_field (cap : ContentCap C) (o : WireObj) (st : Slots)
    (tag : Field) (htag : tag ∈ requiredFields)
    (hw : walk initSlots o = .ok st) (habs : st.get tag = none)
    (hoth : ∀ t ∈ requiredFields, t ≠ tag → (st.get t).isSome = true)
    (hres : ∀ t raw, st.event_type = some t → st.content = some raw →
      tag ≠ .type → tag ≠ .content → ∃ c, cap.from_parts t raw = .ok c) :
    decode cap o = .error (.missingField tag.name) := by
  unfold decode
  rw [hw]
  simp only [requiredFields] at htag
  fin_cases htag
  · exact resolve_missing_type (Option.map_eq_none'.mp habs)
  · obtain ⟨t, ht⟩ := get_type_some (hoth .type (by simp [requiredFields]) (by decide))
    exact resolve_missing_content ht (Option.map_eq_none'.mp habs)
  · obtain ⟨t, ht⟩ := get_type_some (hoth .type (by simp [requiredFields]) (by decide))
    obtain ⟨raw, hcr⟩ := get_content_some (hoth .content (by simp [requiredFields]) (by decide))
    obtain ⟨c, hfc⟩ := hres t raw ht hcr (by decide) (by decide)
    exact resolve_missing_event_id ht hcr hfc (Option.map_eq_none'.mp habs)
  · obtain ⟨t, ht⟩ := get_type_some (hoth .type (by simp [requiredFields]) (by decide))
    obtain ⟨raw, hcr⟩ := get_content_some (hoth .content (by simp [requiredFields]) (by decide))
    obtain ⟨c, hfc⟩ := hres t raw ht hcr (by decide) (by decide)
    obtain ⟨eid, hei⟩ := get_event_id_some (hoth .event_id (by simp [requiredFields]) (by decide))
    exact resolve_missing_sender ht hcr hfc hei (Option.map_eq_none'.mp habs)
  · obtain ⟨t, ht⟩ := get_type_some (hoth .type (by simp [requiredFields]) (by decide))
    obtain ⟨raw, hcr⟩ := get_content_some (hoth .content (by simp [requiredFields]) (by decide))
    obtain ⟨c, hfc⟩ := hres t raw ht hcr (by decide) (by decide)
    obtain ⟨eid, hei⟩ := get_event_id_some (hoth .event_id (by simp [requiredFields]) (by decide))
    obtain ⟨snd, hse⟩ := get_sender_some (hoth .sender (by simp [requiredFields]) (by decide))
    exact resolve_missing_ts ht hcr hfc hei hse (Option.map_eq_none'.mp habs)
  · obtain ⟨t, ht⟩ := get_type_some (hoth .type (by simp [requiredFields]) (by decide))
    obtain ⟨raw, hcr⟩ := get_content_some (hoth .content (by simp [requiredFields]) (by decide))
    obtain ⟨c, hfc⟩ := hres t raw ht hcr (by decide) (by decide)
    obtain ⟨eid, hei⟩ := get_event_id_some (hoth .event_id (by simp [requiredFields]) (by decide))
    obtain ⟨snd, hse⟩ := get_sender_some (hoth .sender (by simp [requiredFields]) (by decide))
    obtain ⟨ts, hts⟩ := get_ts_some (hoth .origin_server_ts (by simp [requiredFields]) (by decide))
    exact resolve_missing_room_id ht hcr hfc hei hse hts (Option.map_eq_none'.mp habs)
  · obtain ⟨t, ht⟩ := get_type_some (hoth .type (by simp [requiredFields]) (by decide))
    obtain ⟨raw, hcr⟩ := get_content_some (hoth .content (by simp [requiredFields]) (by decide))
    obtain ⟨c, hfc⟩ := hres t raw ht hcr (by decide) (by decide)
    obtain ⟨eid, hei⟩ := get_event_id_some (hoth .event_id (by simp [requiredFields]) (by decide))
    obtain ⟨snd, hse⟩ := get_sender_some (hoth .sender (by simp [requiredFields]) (by decide))
    obtain ⟨ts, hts⟩ := get_ts_some (hoth .origin_server_ts (by simp [requiredFields]) (by decide))
    obtain ⟨rid, hri⟩ := get_room_id_some (hoth .room_id (by simp [requiredFields]) (by decide))
    exact resolve_missing_state_key ht hcr hfc hei hse hts hri (Option.map_eq_none'.mp habs)

/-- Witness for C4: omitting only `sender` yields `MissingField "sender"`. -/
theorem decode_missing_field_witness :
    decode anyContentCap missingSenderObj = .error (.missingField "sender") :=
  decode_missing_field anyContentCap missingSenderObj
    ⟨some (.obj [("aliases", .arr [.str "#a:x"])]), some "m.room.aliases",
     some "$1:x", none, some 1, some "!r:x", some "", none, none⟩
    .sender (by decide) rfl rfl (by decide)
    (fun t raw ht hcr _ _ => by
      cases ht
      cases hcr
      exact ⟨.roomAliases ["#a:x"], rfl⟩)

/-- Claim C10 (amended): when a wire object walks cleanly and the
content payload resolves whenever both `type` and `content` are
present, the `MissingField` error decode reports names the first
absent field in the fixed resolution order `type`, `content`,
`event_id`, `sender`, `origin_server_ts`, `room_id`, `state_key` —
independent of the order in which the present keys appeared. -/
theorem first_missing_field (cap : ContentCap C) (o : WireObj) (st : Slots)
    (tag : Field) (hw : walk initSlots o = .ok st)
    (hfind : requiredFields.find? (fun t => !(st.get t).isSome) = some tag)
    (hres : ∀ t raw, st.event_type = some t → st.content = some raw →
      ∃ c, cap.from_parts t raw = .ok c) :
    decode cap o = .error (.missingField tag.name) := by
  unfold decode
  rw [hw]
  rcases hTy : st.event_type with _ | t
  · have htag : Field.type = tag := by
      simpa [requiredFields, List.find?, Slots.get, hTy] using hfind
    subst htag
    exact resolve_missing_type hTy
  rcases hC : st.content with _ | raw
  · have htag : Field.content = tag := by
      simpa [requiredFields, List.find?, Slots.get, hTy, hC] using hfind
    subst htag
    exact resolve_missing_content hTy hC
  obtain ⟨c, hfc⟩ := hres t raw hTy hC
  rcases hE : st.event_id with _ | eid
  · have htag : Field.event_id = tag := by
      simpa [requiredFields, List.find?, Slots.get, hTy, hC, hE] using hfind
    subst htag
    exact resolve_missing_event_id hTy hC hfc hE
  rcases hS : st.sender with _ | snd
  · have htag : Field.sender = tag := by
      simpa [requiredFields, List.find?, Slots.get, hTy, hC, hE, hS] using hfind
    subst htag
    exact resolve_missing_sender hTy hC hfc hE hS
  rcases hT : st.origin_server_ts with _ | ts
  · have htag : Field.origin_server_ts = tag := by
      simpa [requiredFields, List.find?, Slots.get, hTy, hC, hE, hS, hT] using hfind
    subst htag
    exact resolve_missing_ts hTy hC hfc hE hS hT
  rcases hR : st.room_id with _ | rid
  · have htag : Field.room_id = tag := by
      simpa [requiredFields, List.find?, Slots.get, hTy, hC, hE, hS, hT, hR] using hfind
    subst htag
    exact resolve_missing_room_id hTy hC hfc hE hS hT hR
  rcases hK : st.state_key with _ | sk
  · have htag : Field.state_key = tag := by
      simpa [requiredFields, List.find?, Slots.get, hTy, hC, hE, hS, hT, hR, hK] using hfind
    subst htag
    exact resolve_missing_state_key hTy hC hfc hE hS hT hR hK
  · exfalso
    simp [requiredFields, List.find?, Slots.get, hTy, hC, hE, hS, hT, hR, hK] at hfind

/-- Claim C10, counterexample to the claim as stated: `unknownTypeObj`
omits four required fields and has neither duplicate nor unknown keys,
yet decode reports the content-resolution error, not `MissingField` of
the first absent field `event_id`. -/
theorem first_missing_counterexample :
    unknownTypeObj.map Prod.fst = ["type", "content", "state_key"] ∧
    decode anyContentCap unknownTypeObj =
      .error (.content "unknown event type x.unregistered") ∧
    decode anyContentCap unknownTypeObj ≠ .error (.missingField "event_id") :=
  ⟨rfl, rfl, fun h => absurd (Except.error.inj h) (by decide)⟩

/-- Witness for C10: of the four absent required fields of `sparseObj`,
the one the error names is `event_id`, the first in resolution order. -/
theorem first_missing_field_witness :
    decode anyContentCap sparseObj = .error (.missingField "event_id") :=
  first_missing_field anyContentCap sparseObj
    ⟨some (.obj [("aliases", .arr [.str "#a:x"])]), some "m.room.aliases",
     none, none, none, none, some "", none, none⟩
    .event_id rfl (by decide)
    (fun t raw ht hcr => by
      cases ht
      cases hcr
      exact ⟨.roomAliases ["#a:x"], rfl⟩)

/-- Witness for C1: the round trip at a concrete fully-populated
envelope. -/
theorem decode_encode_roundtrip_witness :
    encode anyContentCap fullEnvelope = .ok (wireOf anyContentCap fullEnvelope) ∧
    decode anyContentCap (wireOf anyContentCap fullEnvelope) = .ok fullEnvelope :=
  decode_encode_roundtrip anyContentCap fullEnvelope (by decide) (by decide)
    rfl (fun p h => by cases h; rfl)

/-- Witness for C5: the key-presence biconditionals at a concrete
envelope carrying a populated `prev_content` and a non-empty
`unsigned` map. -/
theorem encode_omission_witness :
    ("prev_content" ∈ (wireOf anyContentCap fullEnvelope).map Prod.fst ↔
      fullEnvelope.prev_content.isSome = true) ∧
    ("unsigned" ∈ (wireOf anyContentCap fullEnvelope).map Prod.fst ↔
      fullEnvelope.unsigned.isEmpty = false) :=
  encode_omission anyContentCap fullEnvelope (wireOf anyContentCap fullEnvelope) rfl

end RumaState
